import Mathlib

/-!
Verification of the ICSEF interactive shell core.

Shallow embedding of `src/interpreter/base_interpreter.py`
(class `BaseInterpreter`) and `icssploit/printer.py` (class
`PrinterThread`).  Python strings are modelled as Lean `String`
(lists of characters underneath); Python attribute dictionaries
are modelled as association lists from attribute names to values;
exceptions become `Except`; the interpreter loop becomes a trace
of explicit actions.
-/

namespace ICSEF

/-! ## Python string primitives -/

/-- The whitespace characters stripped by Python `str.strip()`
(space, tab, newline, carriage return, vertical tab, form feed). -/
def pyIsSpace (c : Char) : Bool :=
  c = ' ' || c = '\t' || c = '\n' || c = '\r' || c = Char.ofNat 11 || c = Char.ofNat 12

/-- Python `str.lstrip()` on the character list. -/
def lstripL (l : List Char) : List Char := l.dropWhile pyIsSpace

/-- Python `str.rstrip()` on the character list. -/
def rstripL (l : List Char) : List Char := (l.reverse.dropWhile pyIsSpace).reverse

/-- Python `str.strip()` on the character list. -/
def stripL (l : List Char) : List Char := rstripL (lstripL l)

/-- Python `s.partition(" ")`, keeping only the parts before and after
the first space character; when no space occurs the whole string is the
first part and the second is empty (Python returns `(s, "", "")`). -/
def pyPartitionSpace : List Char → List Char × List Char
  | [] => ([], [])
  | c :: cs =>
    if c = ' ' then ([], cs)
    else
      let p := pyPartitionSpace cs
      (c :: p.1, p.2)

/-- Python `s.startswith(t)`: `t` is a prefix of `s`. -/
def pyStartsWith (t s : String) : Bool := t.data.isPrefixOf s.data

/-- Python `str.lstrip()` on a `String`. -/
def lstripStr (s : String) : String := ⟨lstripL s.data⟩

/-- Python `s.rsplit("_").pop()`: the segment of `s` after its last
underscore (the whole string when it has none). -/
def pyRsplitLastSeg (s : String) : String :=
  ⟨(s.data.reverse.takeWhile (fun c => c != '_')).reverse⟩

/-- `BaseInterpreter.parse_line`:
`command, _, arg = line.strip().partition(" "); return command, arg.strip()`. -/
def parse_line (line : String) : String × String :=
  let s := stripL line.data
  let p := pyPartitionSpace s
  (⟨p.1⟩, ⟨stripL p.2⟩)

/-- The spec's own description of line parsing ("splits on the first
run of whitespace"): command is the token before the first whitespace
run of the stripped line, argument is the remainder stripped. -/
def specParseLine (line : String) : String × String :=
  let s := stripL line.data
  (⟨s.takeWhile (fun c => !pyIsSpace c)⟩, ⟨stripL (s.dropWhile (fun c => !pyIsSpace c))⟩)

theorem pyPartitionSpace_eq (l : List Char) :
    pyPartitionSpace l = (l.takeWhile (fun c => c != ' '), (l.dropWhile (fun c => c != ' ')).tail) := by
  induction l with
  | nil => rfl
  | cons c cs ih =>
    by_cases h : c = ' '
    · simp [pyPartitionSpace, h, List.takeWhile, List.dropWhile]
    · have hb : (c != ' ') = true := by simp [h]
      simp [pyPartitionSpace, h, ih, hb, List.takeWhile, List.dropWhile]

/-! ## Attribute model and handler resolution -/

/-- The attribute dictionary of the `current_module` object, mapping
attribute names to values (e.g. `"command_ping"` to a handler). -/
structure Module (α : Type) where
  attrs : List (String × α)

/-- The interpreter object: its own attribute dictionary and the
optional `current_module` attribute (`none` models the attribute being
absent, so that accessing it raises `AttributeError`). -/
structure Shell (α : Type) where
  attrs : List (String × α)
  current_module : Option (Module α)

/-- Python `getattr(obj, name)` over an attribute dictionary:
`none` models an `AttributeError`. -/
def lookupAttr {α : Type} : List (String × α) → String → Option α
  | [], _ => none
  | (n, v) :: rest, name => if n = name then some v else lookupAttr rest name

/-- `BaseInterpreter.get_command_handler`: try `getattr(self,
"command_<command>")`; on `AttributeError` try the same on
`self.current_module` (whose own absence also raises
`AttributeError`, caught by the same handler); if that fails too,
raise `icssploitException("Unknown command: '<command>'")`. -/
def get_command_handler {α : Type} (sh : Shell α) (command : String) : Except String α :=
  match lookupAttr sh.attrs ("command_" ++ command) with
  | some h => .ok h
  | none =>
    match sh.current_module with
    | none => .error ("Unknown command: '" ++ command ++ "'")
    | some m =>
      match lookupAttr m.attrs ("command_" ++ command) with
      | some h => .ok h
      | none => .error ("Unknown command: '" ++ command ++ "'")

/-! ## The interpreter loop as an action trace -/

/-- Outcome of invoking one command handler: normal return, an
`icssploitException` raised by the handler (a domain error carrying a
message), or any other exception (not caught by the loop). -/
inductive HOutcome where
  | ok
  | domainError (msg : String)
  | fault
deriving DecidableEq

/-- A command handler: one argument string, one outcome. -/
def Handler : Type := String → HOutcome

/-- Result of `input(self.prompt)`: a line, end of input (`EOFError`),
or `KeyboardInterrupt`. -/
inductive ReadResult where
  | line (s : String)
  | eof
  | interrupt

/-- Observable actions of `BaseInterpreter.start`, in program order:
printing the banner, displaying the prompt (inside `input`), invoking
a resolved handler, `utils.print_error`, `utils.print_info` (blank
line), `utils.print_status`, and `printer_queue.join()` (the drain
barrier). -/
inductive Action where
  | printBanner
  | prompt
  | invoke (cmd arg : String)
  | printError (msg : String)
  | printInfo
  | printStatus (s : String)
  | drain
deriving DecidableEq

/-- How one loop iteration ends: continue the `while True` loop,
`break` out of it (EOF), or propagate an uncaught handler exception. -/
inductive LoopResult where
  | next
  | terminated
  | faulted
deriving DecidableEq

/-- The `try` body of one iteration of `BaseInterpreter.start` plus
its `except` clauses: read a line (showing the prompt), parse it, skip
empty commands, resolve and invoke the handler;
`icssploitException` prints the error and continues, `EOFError` prints
the shutdown notice and breaks, `KeyboardInterrupt` prints a blank
line and continues. -/
def tryBody (sh : Shell Handler) (input : ReadResult) : List Action × LoopResult :=
  match input with
  | .eof => ([.prompt, .printInfo, .printStatus "icssploit stopped"], .terminated)
  | .interrupt => ([.prompt, .printInfo], .next)
  | .line s =>
    let pr := parse_line s
    if pr.1 = "" then ([.prompt], .next)
    else
      match get_command_handler sh pr.1 with
      | .error msg => ([.prompt, .printError msg], .next)
      | .ok h =>
        match h pr.2 with
        | .ok => ([.prompt, .invoke pr.1 pr.2], .next)
        | .domainError m => ([.prompt, .invoke pr.1 pr.2, .printError m], .next)
        | .fault => ([.prompt, .invoke pr.1 pr.2], .faulted)

/-- One full iteration of the loop: the `try`/`except` body followed by
the `finally: printer_queue.join()` clause, which runs on every path
(success, caught exception, `continue`, `break`, and propagation). -/
def iteration (sh : Shell Handler) (input : ReadResult) : List Action × LoopResult :=
  let b := tryBody sh input
  (b.1 ++ [Action.drain], b.2)

/-- The `while True` loop of `start`, driven by a finite schedule of
read results; stops early on `break` or on an uncaught exception. -/
def loopRun (sh : Shell Handler) : List ReadResult → List Action
  | [] => []
  | i :: is =>
    let it := iteration sh i
    match it.2 with
    | .next => it.1 ++ loopRun sh is
    | _ => it.1

/-- `BaseInterpreter.start`: `print(self.banner)`, the initial
`printer_queue.join()`, then the loop. -/
def startTrace (sh : Shell Handler) (inputs : List ReadResult) : List Action :=
  Action.printBanner :: Action.drain :: loopRun sh inputs

/-- `checkFrom prev tr` holds when, in trace `tr` with `prev` the
immediately preceding action, every `prompt` is immediately preceded by
a `drain`. -/
def checkFrom (prev : Action) : List Action → Bool
  | [] => true
  | a :: rest =>
    (if a = Action.prompt then prev = Action.drain else true) && checkFrom a rest

/-- No prompt occurs in the list. -/
def noPrompt (l : List Action) : Bool := l.all (fun a => a != Action.prompt)

/-! ## The printer worker -/

/-- One item of `printer_queue`: the tuple
`(content, sep, end, file_, thread)` produced for `PrinterThread.run`.
`eol` embeds the Python keyword argument `end`; `stream` identifies the
destination stream `file_`; `origin` is the diagnostic thread field. -/
structure PrintRequest where
  content : List String
  sep : String
  eol : String
  stream : Nat
  origin : Nat
deriving DecidableEq

/-- Whether the printer thread is still alive. -/
inductive WorkerState where
  | running
  | crashed (err : String)
deriving DecidableEq

/-- `PrinterThread.run` on a finite queue: repeatedly `get` a request
and `print` it.  The `print` call is modelled by `write`, which may
raise (`.error`); `run` has no exception handling, so a raised error
terminates the thread, leaving the failing request and everything
after it unprocessed (and its `task_done` never called).  Returns the
successfully written requests, the unprocessed remainder, and the
final thread state. -/
def runWorker (write : PrintRequest → Except String Unit) :
    List PrintRequest → List PrintRequest × List PrintRequest × WorkerState
  | [] => ([], [], .running)
  | r :: rs =>
    match write r with
    | .ok _ =>
      let tailRun := runWorker write rs
      (r :: tailRun.1, tailRun.2.1, tailRun.2.2)
    | .error e => ([], r :: rs, .crashed e)

/-! ## The completion engine -/

/-- The readline state consulted by `BaseInterpreter.complete` at
`state == 0`: `get_line_buffer()`, `get_begidx()`, `get_endidx()`. -/
structure ReadlineEnv where
  buffer : String
  begidx : Nat
  endidx : Nat

/-- A `complete_<command>` attribute:
`(text, line, start_index, end_index) -> matches`. -/
def Completer : Type := String → String → Int → Int → List String

/-- The interpreter as seen by the completion engine: `dir(self)` (its
attribute names, for `commands()`) and its callable `complete_<cmd>`
attributes (`getattr(self, "complete_" + cmd)` succeeds exactly on
this list). -/
structure CShell where
  attrNames : List String
  completers : List (String × Completer)

/-- `BaseInterpreter.commands`:
`[command.rsplit("_").pop() for command in dir(self) if command.startswith("command_")]`.
Note `rsplit("_")` splits on every underscore, so `pop()` yields the
segment after the last one. -/
def commands (sh : CShell) : List String :=
  (sh.attrNames.filter (fun c => pyStartsWith "command_" c)).map pyRsplitLastSeg

/-- `BaseInterpreter.suggested_commands`: defaults to `commands()`. -/
def suggested_commands (sh : CShell) : List String := commands sh

/-- `BaseInterpreter.default_completer`: always `[]`. -/
def default_completer : List String := []

/-- `BaseInterpreter.raw_command_completer`:
`filter(lambda entry: entry.startswith(text), self.suggested_commands())`. -/
def raw_command_completer (sh : CShell) (text : String) : List String :=
  (suggested_commands sh).filter (fun entry => pyStartsWith text entry)

/-- `len(original_line) - len(line)` for `line = original_line.lstrip()`. -/
def strippedLen (env : ReadlineEnv) : Nat :=
  env.buffer.length - (lstripStr env.buffer).length

/-- `start_index = readline.get_begidx() - stripped` (may be negative). -/
def startIndex (env : ReadlineEnv) : Int :=
  (env.begidx : Int) - (strippedLen env : Int)

/-- `end_index = readline.get_endidx() - stripped`. -/
def endIndex (env : ReadlineEnv) : Int :=
  (env.endidx : Int) - (strippedLen env : Int)

/-- The `state == 0` branch of `BaseInterpreter.complete`: choose
`raw_command_completer` at command position (`start_index <= 0`),
otherwise parse the command and delegate to `complete_<cmd>` when it
exists, else `default_completer`; call it on
`(text, line, start_index, end_index)`. -/
def completionMatches (sh : CShell) (env : ReadlineEnv) (text : String) : List String :=
  let line := lstripStr env.buffer
  if 0 < startIndex env then
    let cmd := (parse_line line).1
    if cmd = "" then default_completer
    else
      match lookupAttr sh.completers ("complete_" ++ cmd) with
      | some f => f text line (startIndex env) (endIndex env)
      | none => default_completer
  else raw_command_completer sh text

/-- `BaseInterpreter.complete`: at `state == 0` recompute and cache
`completion_matches`, otherwise keep the cache; return
`completion_matches[state]`, or `None` on `IndexError`.  The pair is
(returned candidate, new cache). -/
def complete (sh : CShell) (env : ReadlineEnv) (cache : List String)
    (text : String) (state : Nat) : Option String × List String :=
  let ms := if state = 0 then completionMatches sh env text else cache
  (ms.get? state, ms)

/-! ## Helper lemmas -/

theorem takeWhile_all_append (p : Char → Bool) (l1 l2 : List Char)
    (h : ∀ a ∈ l1, p a = true) :
    List.takeWhile p (l1 ++ l2) = l1 ++ List.takeWhile p l2 := by
  induction l1 with
  | nil => simp
  | cons a as ih => simp_all [List.takeWhile]

theorem dropWhile_all_false (p : Char → Bool) (l : List Char)
    (h : ∀ a ∈ l, p a = false) : l.dropWhile p = l := by
  induction l with
  | nil => rfl
  | cons a as ih => simp_all [List.dropWhile]

theorem stripL_no_space_eq (l : List Char) (h : ∀ a ∈ l, pyIsSpace a = false) :
    stripL l = l := by
  have h1 : lstripL l = l := dropWhile_all_false pyIsSpace l h
  have h2 : l.reverse.dropWhile pyIsSpace = l.reverse :=
    dropWhile_all_false pyIsSpace l.reverse
      (fun a ha => h a (List.mem_reverse.mp ha))
  simp [stripL, h1, rstripL, h2]

/-! ## C1: parse_line -/

/-- C1 counterexample: the claim says `parse_line` splits on the first
run of whitespace, but the code partitions on the first space
character only; on `"a\tb"` (a tab, no space) the code returns the
whole stripped line as the command, not the token before the tab. -/
theorem c1_tab_counterexample :
    parse_line "a\tb" = ("a\tb", "") ∧
    specParseLine "a\tb" = ("a", "b") ∧
    parse_line "a\tb" ≠ specParseLine "a\tb" := by
  refine ⟨by decide, by decide, by decide⟩

/-- C1 (amended): `parse_line` strips the line, then splits at the
first space character (not at a general whitespace run): the command
is everything before the first space of the stripped line (the whole
stripped line when it contains no space, empty for blank or
whitespace-only input), and the argument is the remainder with
surrounding whitespace stripped; the three quoted examples hold. -/
theorem c1_parse_line_amended (line : String) :
    parse_line line =
      (⟨(stripL line.data).takeWhile (fun c => c != ' ')⟩,
       ⟨stripL (((stripL line.data).dropWhile (fun c => c != ' ')).tail)⟩) ∧
    (' ' ∉ stripL line.data → parse_line line = (⟨stripL line.data⟩, "")) ∧
    parse_line "foo bar baz" = ("foo", "bar baz") ∧
    parse_line "   " = ("", "") ∧
    parse_line "cmd" = ("cmd", "") := by
  refine ⟨by simp [parse_line, pyPartitionSpace_eq], ?_, by decide, by decide, by decide⟩
  intro h
  have h1 : (stripL line.data).takeWhile (fun c => c != ' ') = stripL line.data := by
    apply List.takeWhile_eq_self_iff.mpr
    intro x hx
    simp only [bne_iff_ne, ne_eq]
    exact fun e => h (e ▸ hx)
  have h2 : (stripL line.data).dropWhile (fun c => c != ' ') = [] := by
    apply List.dropWhile_eq_nil_iff.mpr
    intro x hx
    simp only [bne_iff_ne, ne_eq]
    exact fun e => h (e ▸ hx)
  simp [parse_line, pyPartitionSpace_eq, h1, h2]
  rfl

/-- C1 witness: the no-space case of the amended statement at a
concrete line. -/
theorem c1_parse_line_amended_witness : parse_line "hi" = ("hi", "") := by
  have h := (c1_parse_line_amended "hi").2.1
  exact h (by decide)

/-! ## C2: handler resolution precedence and unknown commands -/

/-- C2: `get_command_handler` returns the built-in `command_<c>`
attribute when the shell has one (whatever the current module holds);
only when the built-in is absent does it consult the current module;
when neither resolves, it raises the unknown-command error whose
message contains the literal command text. -/
theorem c2_handler_resolution (α : Type) (sh : Shell α) (c : String) :
    (∀ h, lookupAttr sh.attrs ("command_" ++ c) = some h →
      get_command_handler sh c = .ok h) ∧
    (lookupAttr sh.attrs ("command_" ++ c) = none →
      ∀ m f, sh.current_module = some m →
        lookupAttr m.attrs ("command_" ++ c) = some f →
        get_command_handler sh c = .ok f) ∧
    (lookupAttr sh.attrs ("command_" ++ c) = none →
      (∀ m, sh.current_module = some m → lookupAttr m.attrs ("command_" ++ c) = none) →
      get_command_handler sh c = .error ("Unknown command: '" ++ c ++ "'") ∧
      ∃ pre post, "Unknown command: '" ++ c ++ "'" = pre ++ c ++ post) := by
  refine ⟨fun h hh => by simp [get_command_handler, hh], fun hn m f hm hf => ?_, fun hn hm => ?_⟩
  · simp [get_command_handler, hn, hm, hf]
  · refine ⟨?_, "Unknown command: '", "'", rfl⟩
    cases hcm : sh.current_module with
    | none => simp [get_command_handler, hn, hcm]
    | some m => simp [get_command_handler, hn, hcm, hm m hcm]

/-- C2 witness: with `command_ping` both built in and on the active
module, resolution yields the built-in; an unregistered `"xyz"` fails
with a message containing `"xyz"`. -/
theorem c2_handler_resolution_witness :
    get_command_handler (⟨[("command_ping", 1)], some ⟨[("command_ping", 2)]⟩⟩ : Shell Nat) "ping" = .ok 1 ∧
    get_command_handler (⟨[("command_other", 1)], some ⟨[]⟩⟩ : Shell Nat) "xyz" =
      .error ("Unknown command: '" ++ "xyz" ++ "'") := by
  constructor
  · exact (c2_handler_resolution Nat ⟨[("command_ping", 1)], some ⟨[("command_ping", 2)]⟩⟩ "ping").1 1 (by decide)
  · exact ((c2_handler_resolution Nat ⟨[("command_other", 1)], some ⟨[]⟩⟩ "xyz").2.2 (by decide)
      (fun m hm => by injection hm with h; subst h; decide)).1

/-! ## C10: missing current_module attribute -/

/-- C10: when the `current_module` attribute is absent and no built-in
matches, the `AttributeError` raised by accessing `current_module` is
caught by the same fallback, and resolution still fails with the
recoverable unknown-command error containing the command text. -/
theorem c10_missing_module (α : Type) (sh : Shell α) (c : String)
    (hmod : sh.current_module = none)
    (hb : lookupAttr sh.attrs ("command_" ++ c) = none) :
    get_command_handler sh c = .error ("Unknown command: '" ++ c ++ "'") ∧
    ∃ pre post, "Unknown command: '" ++ c ++ "'" = pre ++ c ++ post := by
  refine ⟨by simp [get_command_handler, hb, hmod], "Unknown command: '", "'", rfl⟩

/-- C10 witness: a shell with no `current_module` attribute and no
matching built-in at a concrete command. -/
theorem c10_missing_module_witness :
    get_command_handler (⟨[("command_ping", 1)], none⟩ : Shell Nat) "xyz" =
      .error ("Unknown command: '" ++ "xyz" ++ "'") :=
  (c10_missing_module Nat ⟨[("command_ping", 1)], none⟩ "xyz" rfl (by decide)).1

/-! ## C3: the drain barrier -/

theorem checkFrom_append_noPrompt (body : List Action) (p : Action) (l : List Action)
    (h : noPrompt body = true) :
    checkFrom p (body ++ l) = checkFrom (body.getLastD p) l := by
  induction body generalizing p with
  | nil => rfl
  | cons a as ih =>
    simp only [noPrompt, List.all_cons, Bool.and_eq_true, bne_iff_ne, ne_eq] at h
    rw [List.getLastD_cons]
    simp only [List.cons_append, checkFrom, if_neg h.1, Bool.true_and]
    exact ih a h.2

theorem iteration_shape (sh : Shell Handler) (i : ReadResult) :
    ∃ body res, iteration sh i = (Action.prompt :: body ++ [Action.drain], res) ∧
      noPrompt body = true := by
  cases i with
  | eof => exact ⟨[.printInfo, .printStatus "icssploit stopped"], .terminated, rfl, by decide⟩
  | interrupt => exact ⟨[.printInfo], .next, rfl, by decide⟩
  | line s =>
    by_cases hc : (parse_line s).1 = ""
    · exact ⟨[], .next, by simp [iteration, tryBody, hc], by decide⟩
    · cases hE : get_command_handler sh (parse_line s).1 with
      | error msg =>
        exact ⟨[.printError msg], .next, by simp [iteration, tryBody, hc, hE], rfl⟩
      | ok h =>
        cases hO : h (parse_line s).2 with
        | ok =>
          exact ⟨[.invoke (parse_line s).1 (parse_line s).2], .next,
            by simp [iteration, tryBody, hc, hE, hO], rfl⟩
        | domainError m =>
          exact ⟨[.invoke (parse_line s).1 (parse_line s).2, .printError m], .next,
            by simp [iteration, tryBody, hc, hE, hO], rfl⟩
        | fault =>
          exact ⟨[.invoke (parse_line s).1 (parse_line s).2], .faulted,
            by simp [iteration, tryBody, hc, hE, hO], rfl⟩

theorem loopRun_check (sh : Shell Handler) (inputs : List ReadResult) :
    checkFrom Action.drain (loopRun sh inputs) = true := by
  induction inputs with
  | nil => rfl
  | cons i is ih =>
    obtain ⟨body, res, hit, hnp⟩ := iteration_shape sh i
    have key : ∀ rest, checkFrom Action.drain rest = true →
        checkFrom Action.drain ((Action.prompt :: body ++ [Action.drain]) ++ rest) = true := by
      intro rest hrest
      have : (Action.prompt :: body ++ [Action.drain]) ++ rest =
          Action.prompt :: (body ++ (Action.drain :: rest)) := by simp
      rw [this]
      simp only [checkFrom, if_pos rfl]
      rw [checkFrom_append_noPrompt body Action.prompt (Action.drain :: rest) hnp]
      simp [checkFrom, hrest]
    cases hres : res with
    | next =>
      have : loopRun sh (i :: is) = (Action.prompt :: body ++ [Action.drain]) ++ loopRun sh is := by
        simp [loopRun, hit, hres]
      rw [this]
      exact key _ ih
    | terminated =>
      have : loopRun sh (i :: is) = (Action.prompt :: body ++ [Action.drain]) ++ [] := by
        simp [loopRun, hit, hres]
      rw [this]
      exact key [] rfl
    | faulted =>
      have : loopRun sh (i :: is) = (Action.prompt :: body ++ [Action.drain]) ++ [] := by
        simp [loopRun, hit, hres]
      rw [this]
      exact key [] rfl

/-- C3: in every trace of `start` — whatever mix of successful
commands, recovered errors, end-of-input and interrupts drives it —
every prompt is immediately preceded by a completed drain barrier
(`printer_queue.join()`), and every single iteration ends with the
drain action via the `finally` clause, before the loop re-prompts or
exits. -/
theorem c3_drain_barrier (sh : Shell Handler) (inputs : List ReadResult) (input : ReadResult) :
    checkFrom Action.drain (startTrace sh inputs) = true ∧
    (iteration sh input).1.getLast? = some Action.drain := by
  constructor
  · simp only [startTrace, checkFrom]
    simpa using loopRun_check sh inputs
  · simp [iteration]

/-! ## C9: outcome classification in the main loop -/

/-- C9: the loop classifies outcomes exactly as the spec says: a
recoverable `icssploitException` (unknown command or a handler domain
error) prints its message and the loop continues; end-of-input prints
a blank line and the shutdown notice and terminates; an interrupt
during the read prints only a blank line and continues; a line whose
parsed command is empty is skipped without dispatching any handler. -/
theorem c9_outcome_classification (sh : Shell Handler) :
    iteration sh .eof =
      ([.prompt, .printInfo, .printStatus "icssploit stopped", .drain], .terminated) ∧
    iteration sh .interrupt = ([.prompt, .printInfo, .drain], .next) ∧
    (∀ s, (parse_line s).1 = "" →
      iteration sh (.line s) = ([.prompt, .drain], .next)) ∧
    (∀ s msg, (parse_line s).1 ≠ "" →
      get_command_handler sh (parse_line s).1 = .error msg →
      iteration sh (.line s) = ([.prompt, .printError msg, .drain], .next)) ∧
    (∀ s h msg, (parse_line s).1 ≠ "" →
      get_command_handler sh (parse_line s).1 = .ok h →
      h (parse_line s).2 = .domainError msg →
      iteration sh (.line s) =
        ([.prompt, .invoke (parse_line s).1 (parse_line s).2, .printError msg, .drain], .next)) := by
  refine ⟨rfl, rfl, fun s hc => ?_, fun s msg hc hE => ?_, fun s h msg hc hE hO => ?_⟩
  · simp [iteration, tryBody, hc]
  · simp [iteration, tryBody, hc, hE]
  · simp [iteration, tryBody, hc, hE, hO]

/-- C9 witness: a concrete shell whose `command_ping` raises a domain
error, exercised on end-of-input, an unknown command, an empty line
and a domain error. -/
theorem c9_outcome_classification_witness :
    iteration ⟨[("command_ping", fun _ => HOutcome.domainError "boom")], none⟩ (.line "   ") =
      ([.prompt, .drain], .next) ∧
    iteration ⟨[("command_ping", fun _ => HOutcome.domainError "boom")], none⟩ (.line "xyz") =
      ([.prompt, .printError "Unknown command: 'xyz'", .drain], .next) ∧
    iteration ⟨[("command_ping", fun _ => HOutcome.domainError "boom")], none⟩ (.line "ping target") =
      ([.prompt, .invoke "ping" "target", .printError "boom", .drain], .next) := by
  refine ⟨?_, ?_, ?_⟩
  · exact (c9_outcome_classification _).2.2.1 "   " (by decide)
  · exact (c9_outcome_classification _).2.2.2.1 "xyz" "Unknown command: 'xyz'" (by decide) rfl
  · exact (c9_outcome_classification _).2.2.2.2 "ping target"
      (fun _ => HOutcome.domainError "boom") "boom" (by decide) rfl rfl

/-! ## C4: write errors in the printer worker -/

/-- C4 counterexample: `PrinterThread.run` wraps `print` in no
exception handling, so a failing write crashes the worker: with a
destination whose writes raise, nothing is written, the worker ends
crashed rather than available, and the subsequent request is never
processed — contradicting the claim that write errors are swallowed. -/
theorem c4_write_error_counterexample :
    runWorker (fun _ => .error "stream closed")
        [⟨["a"], " ", "\n", 0, 0⟩, ⟨["b"], " ", "\n", 0, 1⟩] =
      ([], [⟨["a"], " ", "\n", 0, 0⟩, ⟨["b"], " ", "\n", 0, 1⟩], .crashed "stream closed") ∧
    (runWorker (fun _ => .error "stream closed")
        [⟨["a"], " ", "\n", 0, 0⟩, ⟨["b"], " ", "\n", 0, 1⟩]).2.2 ≠ WorkerState.running ∧
    (⟨["b"], " ", "\n", 0, 1⟩ : PrintRequest) ∉
      (runWorker (fun _ => .error "stream closed")
        [⟨["a"], " ", "\n", 0, 0⟩, ⟨["b"], " ", "\n", 0, 1⟩]).1 := by
  refine ⟨rfl, by decide, by decide⟩

/-- C4 (amended): a write error raised while the worker writes a
dequeued request propagates out of the uncaught `while True` loop and
terminates the worker thread: nothing more is written, the failing
request and all subsequent ones remain unprocessed, and the worker is
no longer available. -/
theorem c4_write_error_crashes (write : PrintRequest → Except String Unit)
    (r : PrintRequest) (rs : List PrintRequest) (e : String)
    (h : write r = .error e) :
    runWorker write (r :: rs) = ([], r :: rs, .crashed e) ∧
    ∀ q ∈ rs, q ∉ (runWorker write (r :: rs)).1 := by
  refine ⟨by simp [runWorker, h], fun q _ => by simp [runWorker, h]⟩

/-- C4 witness: the amended statement at a concrete failing write. -/
theorem c4_write_error_crashes_witness :
    runWorker (fun _ => .error "closed") [⟨["x"], " ", "\n", 1, 2⟩] =
      ([], [⟨["x"], " ", "\n", 1, 2⟩], .crashed "closed") :=
  (c4_write_error_crashes (fun _ => .error "closed") ⟨["x"], " ", "\n", 1, 2⟩ [] "closed" rfl).1

/-! ## C5: the iterative completion pull protocol -/

/-- C5: `complete` recomputes and caches the candidate list exactly at
state 0 (whatever the stale cache held); at any other state it leaves
the cache untouched and returns its `state`-th entry; any state at or
beyond the cached list's length yields `none` rather than an error. -/
theorem c5_completion_protocol (sh : CShell) (env : ReadlineEnv)
    (cache : List String) (text : String) (state : Nat) :
    complete sh env cache text 0 =
      ((completionMatches sh env text).get? 0, completionMatches sh env text) ∧
    (state ≠ 0 → complete sh env cache text state = (cache.get? state, cache)) ∧
    ((if state = 0 then completionMatches sh env text else cache).length ≤ state →
      (complete sh env cache text state).1 = none) := by
    refine ⟨rfl, fun h => by simp [complete, h], fun h => ?_⟩
    by_cases h0 : state = 0
    · subst h0
      rw [if_pos rfl] at h
      simpa [complete] using h
    · rw [if_neg h0] at h
      simpa [complete, h0] using h

/-- C5 witness: a non-zero state leaves the cache untouched and an
out-of-range state returns the `none` sentinel. -/
theorem c5_completion_protocol_witness :
    complete ⟨["command_scan"], []⟩ ⟨"sc", 0, 2⟩ ["scan"] "sc" 5 = (none, ["scan"]) := by
  have h := (c5_completion_protocol ⟨["command_scan"], []⟩ ⟨"sc", 0, 2⟩ ["scan"] "sc" 5).2.1
    (by decide)
  rw [h]
  rfl

/-! ## C6: command-position completion -/

/-- C6: at command position (fragment start offset 0 relative to the
stripped line) the candidate list is `suggested_commands()` filtered
to the entries having the fragment as a prefix, in the order of
`suggested_commands()` (the result is a sublist of it). -/
theorem c6_command_position (sh : CShell) (env : ReadlineEnv) (text : String)
    (h : startIndex env = 0) :
    completionMatches sh env text =
      (suggested_commands sh).filter (fun entry => pyStartsWith text entry) ∧
    (completionMatches sh env text).Sublist (suggested_commands sh) ∧
    (∀ entry, entry ∈ completionMatches sh env text ↔
      entry ∈ suggested_commands sh ∧ text.data <+: entry.data) := by
  have hdisp : completionMatches sh env text =
      (suggested_commands sh).filter (fun entry => pyStartsWith text entry) := by
    simp [completionMatches, h, raw_command_completer]
  refine ⟨hdisp, hdisp ▸ List.filter_sublist _, fun entry => ?_⟩
  rw [hdisp, List.mem_filter, pyStartsWith, List.isPrefixOf_iff_prefix]

/-- C6 witness: built-ins `{scan, status, stop}`: the empty fragment
yields all three in `suggested_commands()` order, and `"sc"` yields
only `"scan"`. -/
theorem c6_command_position_witness :
    completionMatches ⟨["command_scan", "command_status", "command_stop"], []⟩ ⟨"", 0, 0⟩ "" =
      ["scan", "status", "stop"] ∧
    completionMatches ⟨["command_scan", "command_status", "command_stop"], []⟩ ⟨"sc", 0, 2⟩ "sc" =
      ["scan"] := by
  constructor
  · rw [(c6_command_position ⟨["command_scan", "command_status", "command_stop"], []⟩
      ⟨"", 0, 0⟩ "" (by decide)).1]
    decide
  · rw [(c6_command_position ⟨["command_scan", "command_status", "command_stop"], []⟩
      ⟨"sc", 0, 2⟩ "sc" (by decide)).1]
    decide

/-! ## C7: argument-position completion -/

/-- C7: at argument position (fragment start offset > 0) the engine
parses the line to recover the typed command and consults only the
shell's `complete_<command>` attribute: when present the candidates
are exactly its result on `(text, line, start_index, end_index)`; when
absent (or when no command parses) the candidate list is empty. -/
theorem c7_argument_position (sh : CShell) (env : ReadlineEnv) (text : String)
    (hpos : 0 < startIndex env) :
    (∀ f, (parse_line (lstripStr env.buffer)).1 ≠ "" →
      lookupAttr sh.completers ("complete_" ++ (parse_line (lstripStr env.buffer)).1) = some f →
      completionMatches sh env text =
        f text (lstripStr env.buffer) (startIndex env) (endIndex env)) ∧
    (lookupAttr sh.completers ("complete_" ++ (parse_line (lstripStr env.buffer)).1) = none →
      completionMatches sh env text = []) ∧
    ((parse_line (lstripStr env.buffer)).1 = "" → completionMatches sh env text = []) := by
  refine ⟨fun f hc hf => ?_, fun hn => ?_, fun hc => ?_⟩
  · simp [completionMatches, hpos, hc, hf]
  · by_cases hc : (parse_line (lstripStr env.buffer)).1 = ""
    · simp [completionMatches, hpos, hc, default_completer]
    · simp [completionMatches, hpos, hc, hn, default_completer]
  · simp [completionMatches, hpos, hc, default_completer]

/-- C7 witness: argument completion for `set` with no `complete_set`
attribute is empty; with one defined it is exactly that attribute's
result. -/
theorem c7_argument_position_witness :
    completionMatches ⟨["command_set"], []⟩ ⟨"set ", 4, 4⟩ "" = [] ∧
    completionMatches ⟨["command_set"], [("complete_set", fun _ _ _ _ => ["target", "port"])]⟩
        ⟨"set ", 4, 4⟩ "" = ["target", "port"] := by
  constructor
  · exact (c7_argument_position ⟨["command_set"], []⟩ ⟨"set ", 4, 4⟩ "" (by decide)).2.1 rfl
  · exact (c7_argument_position ⟨["command_set"], [("complete_set", fun _ _ _ _ => ["target", "port"])]⟩
      ⟨"set ", 4, 4⟩ "" (by decide)).1 (fun _ _ _ _ => ["target", "port"]) (by decide) rfl

/-! ## C8: the command list and underscores -/

/-- C8 counterexample: `commands()` maps each `command_<name>`
attribute through `rsplit("_").pop()`, which keeps only the segment
after the last underscore: with attribute `command_check_all` it
returns `["all"]`, while handler resolution accepts the full name
`check_all` — so the list is not the set of resolvable names. -/
theorem c8_underscore_counterexample :
    commands ⟨["command_check_all"], []⟩ = ["all"] ∧
    "check_all" ∉ commands ⟨["command_check_all"], []⟩ ∧
    get_command_handler (⟨[("command_check_all", 1)], none⟩ : Shell Nat) "check_all" = .ok 1 := by
  refine ⟨by decide, by decide, rfl⟩

/-- C8 (amended): for every attribute `command_<name>` the default
`commands()` (hence `suggested_commands()`) lists the segment of the
attribute name after its last underscore; this equals `<name>` exactly
when `<name>` is underscore-free, so only underscore-free resolvable
names are guaranteed to be listed. -/
theorem c8_commands_amended (sh : CShell) (attr name : String) :
    (attr ∈ sh.attrNames → pyStartsWith "command_" attr = true →
      pyRsplitLastSeg attr ∈ commands sh) ∧
    ('_' ∉ name.data → pyRsplitLastSeg ("command_" ++ name) = name) ∧
    ('_' ∉ name.data → ("command_" ++ name) ∈ sh.attrNames → name ∈ commands sh) := by
  have hseg : '_' ∉ name.data → pyRsplitLastSeg ("command_" ++ name) = name := by
    intro h
    have hrev : ("command_" ++ name).data.reverse =
        name.data.reverse ++ ('_' :: "command".data.reverse) := by
      rw [String.data_append, List.reverse_append]
      rfl
    have hall : ∀ a ∈ name.data.reverse, (a != '_') = true := by
      intro a ha
      rw [List.mem_reverse] at ha
      simp only [bne_iff_ne, ne_eq]
      exact fun e => h (e ▸ ha)
    simp only [pyRsplitLastSeg]
    rw [hrev, takeWhile_all_append (fun c => c != '_') name.data.reverse _ hall]
    simp [List.takeWhile]
  have hmem : ∀ a, a ∈ sh.attrNames → pyStartsWith "command_" a = true →
      pyRsplitLastSeg a ∈ commands sh := by
    intro a ha hp
    exact List.mem_map_of_mem pyRsplitLastSeg (List.mem_filter.mpr ⟨ha, hp⟩)
  refine ⟨hmem attr, hseg, fun h ha => ?_⟩
  have hpw : pyStartsWith "command_" ("command_" ++ name) = true := by
    rw [pyStartsWith, String.data_append]
    exact List.isPrefixOf_iff_prefix.mpr (List.prefix_append _ _)
  have hin := hmem ("command_" ++ name) ha hpw
  rwa [hseg h] at hin

/-- C8 witness: an underscore-free command name present as a built-in
attribute appears verbatim in `commands()`. -/
theorem c8_commands_amended_witness :
    "scan" ∈ commands ⟨["command_scan", "command_stop"], []⟩ := by
  exact (c8_commands_amended ⟨["command_scan", "command_stop"], []⟩ "command_scan" "scan").2.2
    (by decide) (by decide)

end ICSEF
